import Mathlib

attribute [local semireducible] Rat.add Rat.mul Rat.sub Rat.inv

/-
Verification development for the fraud-detection dashboard core
(data_loader preprocessing and network_analysis services).

Numbers that the Python code handles as floats are modelled as rationals
(ℚ); where IEEE-float special values (NaN, ±inf) are behaviourally
relevant (missing signal values, ratio division by zero) an explicit
float-value type `FV` with NaN/inf constructors is used, mirroring the
numpy/pandas rules actually exercised by the code: NaN propagates through
arithmetic, comparisons with NaN are False, x/0 is +inf for x>0, 0/0 is
NaN, and clip leaves NaN in place.
-/

/-- np.clip(x, 0, 1): lower bound applied first, then upper bound. -/
def clip01 (q : ℚ) : ℚ := min 1 (max 0 q)

/-- The fraud-probability formula of DataLoader._preprocess_data:
velocity*0.34 + geo*0.28 + spending*0.19 + [time_since_last < 60]*0.11
plus the random term u (drawn from U(0, 0.08) by the code), clipped to
[0,1]. -/
def fraud_probability_score (v g s t u : ℚ) : ℚ :=
  clip01 (v * (34/100) + g * (28/100) + s * (19/100) +
    (if t < 60 then (11/100 : ℚ) else 0) + u)

/-- pd.cut bin search with default right=True, include_lowest=False:
x falls in bin i when bins[i] < x ≤ bins[i+1]; values outside every bin
get no label (NaN). -/
def cutIdx : List ℚ → ℚ → Option Nat
  | b0 :: b1 :: rest, x =>
      if b0 < x ∧ x ≤ b1 then some 0
      else (cutIdx (b1 :: rest) x).map (· + 1)
  | _, _ => none

/-- DataLoader._preprocess_data risk categories:
pd.cut(fraud_probability, bins=[0, 0.3, 0.6, 0.75, 1.0],
labels=['low','medium','high','critical']). -/
def risk_category (p : ℚ) : Option String :=
  (cutIdx [0, 3/10, 6/10, 3/4, 1] p).bind
    (fun i => ["low", "medium", "high", "critical"].get? i)

/-- Closed-form interval description of the bucketing the code performs
(left-open, right-closed bins), used to state the amended claim. -/
def riskCategoryIntervals (p : ℚ) : Option String :=
  if p ≤ 0 then none
  else if p ≤ 3/10 then some "low"
  else if p ≤ 6/10 then some "medium"
  else if p ≤ 3/4 then some "high"
  else if p ≤ 1 then some "critical"
  else none

/-- IEEE-style float value: finite rational, NaN, +inf or -inf. -/
inductive FV where
  | fin : ℚ → FV
  | nan : FV
  | inf : FV
  | ninf : FV
deriving DecidableEq, Repr

/-- Multiplication of a float value by a finite positive constant
(all scoring coefficients are positive literals). -/
def fmulc (c : ℚ) : FV → FV
  | FV.fin q => FV.fin (q * c)
  | FV.nan => FV.nan
  | FV.inf => if 0 < c then FV.inf else if c < 0 then FV.ninf else FV.nan
  | FV.ninf => if 0 < c then FV.ninf else if c < 0 then FV.inf else FV.nan

/-- Float addition: NaN propagates; inf + (-inf) is NaN. -/
def fadd : FV → FV → FV
  | FV.fin a, FV.fin b => FV.fin (a + b)
  | FV.nan, _ => FV.nan
  | _, FV.nan => FV.nan
  | FV.inf, FV.ninf => FV.nan
  | FV.ninf, FV.inf => FV.nan
  | FV.inf, _ => FV.inf
  | _, FV.inf => FV.inf
  | FV.ninf, _ => FV.ninf
  | _, FV.ninf => FV.ninf

/-- Float comparison x < c: False whenever x is NaN (IEEE semantics,
matching pandas Series comparison). -/
def fltb (x : FV) (c : ℚ) : Bool :=
  match x with
  | FV.fin q => decide (q < c)
  | FV.nan => false
  | FV.inf => false
  | FV.ninf => true

/-- Float comparison c ≤ x: False whenever x is NaN. -/
def fgeb (x : FV) (c : ℚ) : Bool :=
  match x with
  | FV.fin q => decide (c ≤ q)
  | FV.nan => false
  | FV.inf => true
  | FV.ninf => false

/-- pandas .clip(0, 1) on a float value: NaN stays NaN; infinities are
clamped to the bounds. -/
def fclip01 : FV → FV
  | FV.fin q => FV.fin (clip01 q)
  | FV.nan => FV.nan
  | FV.inf => FV.fin 1
  | FV.ninf => FV.fin 0

/-- pandas .fillna(0): replaces NaN (only NaN) with 0. -/
def fillna0 : FV → FV
  | FV.nan => FV.fin 0
  | x => x

/-- numpy float division of finite values: x/0 is +inf for x>0, -inf for
x<0, NaN for 0/0; otherwise the exact quotient. -/
def divF (a b : ℚ) : FV :=
  if b = 0 then
    (if a = 0 then FV.nan else if 0 < a then FV.inf else FV.ninf)
  else FV.fin (a / b)

/-- The fraud-probability computation of _preprocess_data over float
values that may be NaN: no fillna is applied to the signal columns, so
NaN propagates exactly as in pandas; the (time < 60) comparison is False
on NaN and so contributes 0. The random term u is a real draw and hence
finite. -/
def fraud_probability_float (v g s t : FV) (u : ℚ) : FV :=
  fclip01 (fadd (fadd (fadd (fadd (fmulc (34/100) v) (fmulc (28/100) g))
    (fmulc (19/100) s))
    (FV.fin (if fltb t 60 then (11/100 : ℚ) else 0)))
    (FV.fin u))

/-- detect_mule_accounts: redistribution ratio is
(amount_sent / amount_received).fillna(0) computed with float division:
fillna only repairs the NaN of 0/0, not the +inf of x/0 with x>0. -/
def redistribution_ratio (sent received : ℚ) : FV :=
  fillna0 (divF sent received)

/-- A transaction record with the columns the network/scoring services
read. fraud_probability is the per-snapshot score fixed at load time. -/
structure Txn where
  transaction_id : String
  sender_account : String
  receiver_account : String
  amount : ℚ
  fraud_probability : ℚ
deriving DecidableEq, Repr

/-- get_fraud_network_graph: df[df['fraud_probability'] >= min_fraud_prob]. -/
def suspicious (txns : List Txn) (min_fraud_prob : ℚ) : List Txn :=
  txns.filter (fun t => decide (min_fraud_prob ≤ t.fraud_probability))

/-- Deduplication keeping the first occurrence of each element
(Python dict/insertion order semantics). -/
def firstDedupAux {α : Type} [DecidableEq α] : List α → List α → List α
  | [], _ => []
  | a :: l, seen => if a ∈ seen then firstDedupAux l seen
                    else a :: firstDedupAux l (a :: seen)

/-- Deduplicate a list keeping first occurrences, in order. -/
def firstDedup {α : Type} [DecidableEq α] (l : List α) : List α :=
  firstDedupAux l []

/-- Strict lexicographic comparison of char lists by code point (the
order Python and pandas use on strings). -/
def charsLtB : List Char → List Char → Bool
  | [], [] => false
  | [], _ :: _ => true
  | _ :: _, [] => false
  | a :: as, b :: bs =>
    if a.val < b.val then true
    else if b.val < a.val then false
    else charsLtB as bs

/-- Strict lexicographic comparison of strings by code point. -/
def strLtB (s t : String) : Bool := charsLtB s.data t.data

/-- Lexicographic order on (sender, receiver) string pairs, as pandas
groupby(sort=True) sorts its keys. -/
def pairLeB (a b : String × String) : Bool :=
  if strLtB a.1 b.1 then true
  else if strLtB b.1 a.1 then false
  else !(strLtB b.2 a.2)

/-- Insertion step of insertion sort for string pairs. -/
def insertPair (x : String × String) :
    List (String × String) → List (String × String)
  | [] => [x]
  | y :: ys => if pairLeB x y then x :: y :: ys else y :: insertPair x ys

/-- Insertion sort of string pairs by lexicographic order. -/
def sortPairs : List (String × String) → List (String × String)
  | [] => []
  | x :: xs => insertPair x (sortPairs xs)

/-- The unique (sender, receiver) keys of a transaction list in the
order pandas groupby produces them: sorted ascending. -/
def pairKeysOf (txs : List Txn) : List (String × String) :=
  sortPairs (firstDedup (txs.map (fun t => (t.sender_account, t.receiver_account))))

/-- The group of transactions for one (sender, receiver) key. -/
def groupOf (txs : List Txn) (s r : String) : List Txn :=
  txs.filter (fun t => decide (t.sender_account = s ∧ t.receiver_account = r))

/-- One row of the aggregated pairs frame: count of transaction_id,
sum of amount, mean of fraud_probability over the group. -/
structure PairRow where
  sender : String
  receiver : String
  transaction_count : Nat
  total_amount : ℚ
  avg_fraud_prob : ℚ
deriving DecidableEq, Repr

/-- Aggregate one (sender, receiver) group into a pairs row. -/
def mkPairRow (txs : List Txn) (k : String × String) : PairRow :=
  { sender := k.1
    receiver := k.2
    transaction_count := (groupOf txs k.1 k.2).length
    total_amount := ((groupOf txs k.1 k.2).map Txn.amount).sum
    avg_fraud_prob := ((groupOf txs k.1 k.2).map Txn.fraud_probability).sum /
      ((groupOf txs k.1 k.2).length : ℚ) }

/-- The pairs frame of get_fraud_network_graph: group the suspicious
transactions by ordered (sender, receiver) pair, then keep only pairs
with transaction_count >= min_transactions. -/
def pairsOf (txns : List Txn) (min_fraud_prob : ℚ) (min_transactions : Nat) :
    List PairRow :=
  ((pairKeysOf (suspicious txns min_fraud_prob)).map
      (mkPairRow (suspicious txns min_fraud_prob))).filter
    (fun r => decide (min_transactions ≤ r.transaction_count))

/-- NetworkEdge of schemas.py as built by get_fraud_network_graph. -/
structure NetworkEdge where
  source : String
  target : String
  transaction_count : Nat
  total_amount : ℚ
  avg_fraud_probability : ℚ
deriving DecidableEq, Repr

/-- One edge per surviving pairs row. -/
def toEdge (r : PairRow) : NetworkEdge :=
  { source := r.sender
    target := r.receiver
    transaction_count := r.transaction_count
    total_amount := r.total_amount
    avg_fraud_probability := r.avg_fraud_prob }

/-- The full (untruncated) edge list of the relationship graph. -/
def edgesOf (txns : List Txn) (min_fraud_prob : ℚ) (min_transactions : Nat) :
    List NetworkEdge :=
  (pairsOf txns min_fraud_prob min_transactions).map toEdge

/-- Python round(x, n) modelled on rationals (ties rounded up; the exact
tie-breaking of binary floats is not observable in any claim). -/
def roundTo (n : Nat) (q : ℚ) : ℚ :=
  ((⌊q * (10 : ℚ) ^ n + 1/2⌋ : ℤ) : ℚ) / (10 : ℚ) ^ n

/-- NetworkNode of schemas.py as built by _build_nodes. -/
structure NetworkNode where
  id : String
  account_id : String
  transaction_count : Nat
  total_volume : ℚ
  fraud_probability : ℚ
  node_type : String
deriving DecidableEq, Repr

/-- _build_nodes for one account: statistics are computed over the
suspicious (filtered) transaction set, sent and received concatenated
(a self-loop transaction is counted in both, as pd.concat does). -/
def buildNode (susp : List Txn) (account : String) : NetworkNode :=
  { id := account
    account_id := account
    transaction_count :=
      (susp.filter (fun t => decide (t.sender_account = account))).length +
      (susp.filter (fun t => decide (t.receiver_account = account))).length
    total_volume := roundTo 2
      (((susp.filter (fun t => decide (t.sender_account = account))).map Txn.amount).sum +
       ((susp.filter (fun t => decide (t.receiver_account = account))).map Txn.amount).sum)
    fraud_probability := roundTo 3
      (if ((susp.filter (fun t => decide (t.sender_account = account))).length +
           (susp.filter (fun t => decide (t.receiver_account = account))).length) = 0
       then 0
       else
        (((susp.filter (fun t => decide (t.sender_account = account))).map Txn.fraud_probability).sum +
         ((susp.filter (fun t => decide (t.receiver_account = account))).map Txn.fraud_probability).sum) /
        ((((susp.filter (fun t => decide (t.sender_account = account))).length +
           (susp.filter (fun t => decide (t.receiver_account = account))).length) : ℚ)))
    node_type :=
      if (susp.filter (fun t => decide (t.sender_account = account))).length ≠ 0 ∧
         (susp.filter (fun t => decide (t.receiver_account = account))).length ≠ 0
      then "both"
      else if (susp.filter (fun t => decide (t.sender_account = account))).length ≠ 0
      then "sender"
      else "receiver" }

/-- The accounts appearing in surviving pairs (union of senders and
receivers; Python iterates this as a set, so only the set content is
meaningful). -/
def accountsOf (pairs : List PairRow) : List String :=
  firstDedup (pairs.map PairRow.sender ++ pairs.map PairRow.receiver)

/-- _build_nodes over all accounts of the surviving pairs. -/
def buildNodes (susp : List Txn) (pairs : List PairRow) : List NetworkNode :=
  (accountsOf pairs).map (buildNode susp)

/-- The directed adjacency of _detect_fraud_rings: graph[sender] is the
set of receivers over the surviving pairs (only senders get entries). -/
def neighbors (pairs : List (String × String)) (node : String) : List String :=
  (pairs.filter (fun p => decide (p.1 = node))).map Prod.snd

/-- _find_connected_component: FIFO traversal from start, following
outgoing edges only; a popped node already visited is skipped, otherwise
it is marked visited, added to the component, and its not-yet-visited
neighbors are appended to the queue. Fuel bounds the number of pops;
each pair can cause at most one enqueue (its sender is expanded at most
once), so pairs.length + 1 fuel always drains the queue. Returns the
component together with the updated visited set. -/
def bfs (pairs : List (String × String)) :
    Nat → List String → List String → List String × List String
  | 0, _, visited => ([], visited)
  | _ + 1, [], visited => ([], visited)
  | fuel + 1, node :: queue, visited =>
    if node ∈ visited then bfs pairs fuel queue visited
    else
      let r := bfs pairs fuel
        (queue ++ (neighbors pairs node).filter (fun n => decide (n ∉ node :: visited)))
        (node :: visited)
      (node :: r.1, r.2)

/-- _is_cyclic: the permissive heuristic of the code — true as soon as
any member has a directed edge to a different member. -/
def isCyclic (component : List String) (pairs : List (String × String)) : Bool :=
  component.any (fun node =>
    (neighbors pairs node).any (fun n => n ∈ component && n != node))

/-- FraudRing of schemas.py. -/
structure FraudRing where
  ring_id : String
  account_count : Nat
  transaction_count : Nat
  total_volume : ℚ
  avg_fraud_probability : Option ℚ
  accounts : List String
deriving DecidableEq, Repr

/-- Zero-padded ring id as produced by f-string RING_-prefixed %03d. -/
def ringIdString (n : Nat) : String :=
  if n < 10 then "RING_00" ++ toString n
  else if n < 100 then "RING_0" ++ toString n
  else "RING_" ++ toString n

/-- The transactions whose sender and receiver are both ring members. -/
def ringTxnsOf (df : List Txn) (component : List String) : List Txn :=
  df.filter (fun t =>
    decide (t.sender_account ∈ component ∧ t.receiver_account ∈ component))

/-- Build the FraudRing record for a confirmed component. The mean of an
empty selection would be NaN in pandas, modelled as none. -/
def mkRing (df : List Txn) (component : List String) (rid : Nat) : FraudRing :=
  { ring_id := ringIdString rid
    account_count := component.length
    transaction_count := (ringTxnsOf df component).length
    total_volume := ((ringTxnsOf df component).map Txn.amount).sum
    avg_fraud_probability :=
      if (ringTxnsOf df component).length = 0 then none
      else some (((ringTxnsOf df component).map Txn.fraud_probability).sum /
        ((ringTxnsOf df component).length : ℚ))
    accounts := component.take 10 }

/-- The component-discovery-and-ring-building loop of _detect_fraud_rings:
iterate the graph keys (senders, in insertion order), skip visited
starts, BFS a component, and keep it as a ring when it has at least 3
accounts and passes the cyclicity heuristic; ring ids are assigned
sequentially to kept rings only. -/
def detectRingsAux (pairs : List (String × String)) (df : List Txn) (fuel : Nat) :
    List String → List String → Nat → List FraudRing
  | [], _, _ => []
  | k :: ks, visited, rid =>
    if k ∈ visited then detectRingsAux pairs df fuel ks visited rid
    else
      let r := bfs pairs fuel [k] visited
      if 3 ≤ r.1.length ∧ isCyclic r.1 pairs then
        mkRing df r.1 rid :: detectRingsAux pairs df fuel ks r.2 (rid + 1)
      else
        detectRingsAux pairs df fuel ks r.2 rid

/-- _detect_fraud_rings(pairs, df): returns the first 10 detected rings. -/
def detect_fraud_rings (pairsRows : List PairRow) (df : List Txn) :
    List FraudRing :=
  (detectRingsAux (pairsRows.map (fun r => (r.sender, r.receiver))) df
    ((pairsRows.map (fun r => (r.sender, r.receiver))).length + 1)
    (firstDedup ((pairsRows.map (fun r => (r.sender, r.receiver))).map Prod.fst))
    [] 1).take 10

/-- The dictionary returned by get_fraud_network_graph. -/
structure GraphResult where
  nodes : List NetworkNode
  edges : List NetworkEdge
  fraud_rings : List FraudRing
  rings_detected : Nat
  total_accounts : Nat
  total_volume : ℚ
deriving DecidableEq, Repr

/-- NetworkAnalysisService.get_fraud_network_graph(min_transactions,
min_fraud_prob) over a dataset snapshot with fixed per-record scores. -/
def get_fraud_network_graph (txns : List Txn) (min_transactions : Nat)
    (min_fraud_prob : ℚ) : GraphResult :=
  { nodes := buildNodes (suspicious txns min_fraud_prob)
      (pairsOf txns min_fraud_prob min_transactions)
    edges := (edgesOf txns min_fraud_prob min_transactions).take 200
    fraud_rings := detect_fraud_rings (pairsOf txns min_fraud_prob min_transactions)
      (suspicious txns min_fraud_prob)
    rings_detected := (detect_fraud_rings (pairsOf txns min_fraud_prob min_transactions)
      (suspicious txns min_fraud_prob)).length
    total_accounts := (accountsOf (pairsOf txns min_fraud_prob min_transactions)).length
    total_volume := roundTo 2
      (((pairsOf txns min_fraud_prob min_transactions).map PairRow.total_amount).sum) }

/-- The sequence of candidate components the ring loop discovers: same
iteration as detectRingsAux with the ring construction stripped out. -/
def discoverAux (pairs : List (String × String)) (fuel : Nat) :
    List String → List String → List (List String)
  | [], _ => []
  | k :: ks, visited =>
    if k ∈ visited then discoverAux pairs fuel ks visited
    else
      let r := bfs pairs fuel [k] visited
      r.1 :: discoverAux pairs fuel ks r.2

/-- All candidate components considered by _detect_fraud_rings for a
given pair-key list. -/
def discover_components (pairs : List (String × String)) : List (List String) :=
  discoverAux pairs (pairs.length + 1) (firstDedup (pairs.map Prod.fst)) []

/-- Each directed pair together with its reverse: the undirected view. -/
def symPairs (pairs : List (String × String)) : List (String × String) :=
  pairs ++ pairs.map (fun p => (p.2, p.1))

/-- Modelled from the spec: the weakly-connected components of the
filtered relationship graph, i.e. BFS over the adjacency with every edge
treated bidirectionally, started from every node of the graph. -/
def weakComponentsSpec (pairs : List (String × String)) : List (List String) :=
  discoverAux (symPairs pairs) ((symPairs pairs).length + 1)
    (firstDedup (pairs.map Prod.fst ++ pairs.map Prod.snd)) []

/-- Equality of two lists viewed as sets. -/
def eqSetB (c d : List String) : Bool :=
  c.all (fun x => d.contains x) && d.all (fun x => c.contains x)

/-- Equality of two component families viewed as sets of sets. -/
def familyEqB (f g : List (List String)) : Bool :=
  f.all (fun c => g.any (fun d => eqSetB c d)) &&
  g.all (fun d => f.any (fun c => eqSetB c d))

/-- Ascending order on strings, as pandas groupby sorts account keys. -/
def strLeB (a b : String) : Bool := !(strLtB b a)

/-- Insertion step of insertion sort for strings. -/
def insertStr (x : String) : List String → List String
  | [] => [x]
  | y :: ys => if strLeB x y then x :: y :: ys else y :: insertStr x ys

/-- Insertion sort of strings. -/
def sortStrings : List String → List String
  | [] => []
  | x :: xs => insertStr x (sortStrings xs)

/-- nunique of a column: number of distinct values. -/
def countUnique (l : List String) : Nat := (firstDedup l).length

/-- The number of distinct senders that sent to the account
(received.groupby nunique of sender_account). -/
def uniqueSendersOf (txns : List Txn) (a : String) : Nat :=
  countUnique ((txns.filter (fun t => decide (t.receiver_account = a))).map
    Txn.sender_account)

/-- The number of distinct receivers the account sent to. -/
def uniqueReceiversOf (txns : List Txn) (a : String) : Nat :=
  countUnique ((txns.filter (fun t => decide (t.sender_account = a))).map
    Txn.receiver_account)

/-- Total amount the account received. -/
def amountReceivedOf (txns : List Txn) (a : String) : ℚ :=
  ((txns.filter (fun t => decide (t.receiver_account = a))).map Txn.amount).sum

/-- Total amount the account sent. -/
def amountSentOf (txns : List Txn) (a : String) : ℚ :=
  ((txns.filter (fun t => decide (t.sender_account = a))).map Txn.amount).sum

/-- One merged row of the mule-candidate frame of detect_mule_accounts. -/
structure MuleRow where
  account : String
  unique_senders : Nat
  amount_received : ℚ
  avg_fraud_prob : ℚ
  unique_receivers : Nat
  amount_sent : ℚ
  redistribution_ratio : FV
deriving DecidableEq, Repr

/-- The merged row for one account (fields exactly as the two groupby
frames and the ratio column compute them). -/
def mkMuleRow (txns : List Txn) (a : String) : MuleRow :=
  { account := a
    unique_senders := uniqueSendersOf txns a
    amount_received := amountReceivedOf txns a
    avg_fraud_prob :=
      ((txns.filter (fun t => decide (t.receiver_account = a))).map
        Txn.fraud_probability).sum /
      (((txns.filter (fun t => decide (t.receiver_account = a))).length : ℚ))
    unique_receivers := uniqueReceiversOf txns a
    amount_sent := amountSentOf txns a
    redistribution_ratio := redistribution_ratio (amountSentOf txns a)
      (amountReceivedOf txns a) }

/-- Account keys of the merged frame: the receiver keys (sorted, as the
left frame of the merge), kept only when the account also appears as a
sender (inner join). -/
def muleCandidateAccounts (txns : List Txn) : List String :=
  (sortStrings (firstDedup (txns.map Txn.receiver_account))).filter
    (fun a => decide (a ∈ txns.map Txn.sender_account))

/-- The merged mule_candidates frame, over the full unfiltered dataset. -/
def muleCandidates (txns : List Txn) : List MuleRow :=
  (muleCandidateAccounts txns).map (mkMuleRow txns)

/-- The rows passing the mule filter, before the head(20) truncation. -/
def muleFlagged (txns : List Txn) (min_senders : Nat)
    (redistribution_threshold : ℚ) : List MuleRow :=
  (muleCandidates txns).filter (fun m =>
    decide (min_senders ≤ m.unique_senders) &&
    fgeb m.redistribution_ratio redistribution_threshold)

/-- NetworkAnalysisService.detect_mule_accounts(min_senders,
redistribution_threshold): filter then head(20). -/
def detect_mule_accounts (txns : List Txn) (min_senders : Nat)
    (redistribution_threshold : ℚ) : List MuleRow :=
  (muleFlagged txns min_senders redistribution_threshold).take 20

/-- Dataset: a 3-cycle of suspicious transactions A to B to C back to A. -/
def cycleTxns : List Txn :=
  [⟨"T1", "A", "B", 10, 8/10⟩, ⟨"T2", "B", "C", 10, 8/10⟩,
   ⟨"T3", "C", "A", 10, 8/10⟩]

/-- Dataset: a purely linear chain A to B to C with no back-edge. -/
def chainTxns : List Txn :=
  [⟨"T1", "A", "B", 10, 8/10⟩, ⟨"T2", "B", "C", 10, 8/10⟩]

/-- Dataset: two senders A and C both paying B (weakly connected as one
component, but not mutually reachable by directed edges). -/
def vTxns : List Txn :=
  [⟨"T1", "A", "B", 10, 8/10⟩, ⟨"T2", "C", "B", 10, 8/10⟩]

/-- Dataset: account M receives 10 from each of six distinct senders and
redistributes 54 of the received 60 (ratio 0.9) to X. -/
def muleTxns : List Txn :=
  [⟨"T1", "S1", "M", 10, 1/2⟩, ⟨"T2", "S2", "M", 10, 1/2⟩,
   ⟨"T3", "S3", "M", 10, 1/2⟩, ⟨"T4", "S4", "M", 10, 1/2⟩,
   ⟨"T5", "S5", "M", 10, 1/2⟩, ⟨"T6", "S6", "M", 10, 1/2⟩,
   ⟨"T7", "M", "X", 54, 1/2⟩]

/-- The surviving pair keys of the two-senders-one-receiver dataset. -/
def vPairs : List (String × String) :=
  (pairsOf vTxns (6/10) 1).map (fun r => (r.sender, r.receiver))

theorem mem_firstDedupAux {α : Type} [DecidableEq α] :
    ∀ (l seen : List α) (x : α),
      x ∈ firstDedupAux l seen ↔ x ∈ l ∧ x ∉ seen := by
  intro l
  induction l with
  | nil => intro seen x; simp [firstDedupAux]
  | cons a l ih =>
    intro seen x
    by_cases h : a ∈ seen
    · simp only [firstDedupAux, if_pos h, ih, List.mem_cons]
      constructor
      · rintro ⟨hl, hs⟩; exact ⟨Or.inr hl, hs⟩
      · rintro ⟨ha | hl, hs⟩
        · exact absurd (ha ▸ h) hs
        · exact ⟨hl, hs⟩
    · simp only [firstDedupAux, if_neg h, List.mem_cons, ih]
      constructor
      · rintro (rfl | ⟨hl, hs⟩)
        · exact ⟨Or.inl rfl, h⟩
        · exact ⟨Or.inr hl, fun hx => hs (Or.inr hx)⟩
      · rintro ⟨rfl | hl, hs⟩
        · exact Or.inl rfl
        · by_cases hxa : x = a
          · exact Or.inl hxa
          · exact Or.inr ⟨hl, fun hc => hc.elim hxa hs⟩

theorem mem_firstDedup {α : Type} [DecidableEq α] (l : List α) (x : α) :
    x ∈ firstDedup l ↔ x ∈ l := by
  simp [firstDedup, mem_firstDedupAux]

theorem bfs_mem_visited (pairs : List (String × String)) :
    ∀ (fuel : Nat) (queue visited : List String) (x : String),
      x ∈ (bfs pairs fuel queue visited).2 ↔
        x ∈ (bfs pairs fuel queue visited).1 ∨ x ∈ visited := by
  intro fuel
  induction fuel with
  | zero => intro queue visited x; simp [bfs]
  | succ f ih =>
    intro queue visited x
    cases queue with
    | nil => simp [bfs]
    | cons node q =>
      by_cases h : node ∈ visited
      · simp only [bfs, if_pos h]; exact ih q visited x
      · simp only [bfs, if_neg h]
        rw [ih]
        simp only [List.mem_cons]
        tauto

theorem bfs_comp_fresh (pairs : List (String × String)) :
    ∀ (fuel : Nat) (queue visited : List String) (x : String),
      x ∈ (bfs pairs fuel queue visited).1 → x ∉ visited := by
  intro fuel
  induction fuel with
  | zero => intro queue visited x hx; simp [bfs] at hx
  | succ f ih =>
    intro queue visited x hx
    cases queue with
    | nil => simp [bfs] at hx
    | cons node q =>
      by_cases h : node ∈ visited
      · rw [show bfs pairs (f + 1) (node :: q) visited = bfs pairs f q visited from
          by simp [bfs, if_pos h]] at hx
        exact ih q visited x hx
      · simp only [bfs, if_neg h] at hx
        rcases List.mem_cons.mp hx with rfl | hx'
        · exact h
        · intro hv
          exact ih _ (node :: visited) x hx' (List.mem_cons_of_mem node hv)

theorem bfs_start_mem (pairs : List (String × String)) (fuel : Nat)
    (hf : fuel ≠ 0) (k : String) (visited : List String) (hk : k ∉ visited) :
    k ∈ (bfs pairs fuel [k] visited).1 := by
  cases fuel with
  | zero => exact absurd rfl hf
  | succ f => simp [bfs, hk]

theorem discoverAux_fresh (pairs : List (String × String)) (fuel : Nat) :
    ∀ (ks visited : List String) (c : List String),
      c ∈ discoverAux pairs fuel ks visited → ∀ x ∈ c, x ∉ visited := by
  intro ks
  induction ks with
  | nil => intro visited c hc; simp [discoverAux] at hc
  | cons k ks ih =>
    intro visited c hc x hx
    by_cases h : k ∈ visited
    · rw [show discoverAux pairs fuel (k :: ks) visited =
          discoverAux pairs fuel ks visited from by simp [discoverAux, if_pos h]] at hc
      exact ih visited c hc x hx
    · simp only [discoverAux, if_neg h] at hc
      rcases List.mem_cons.mp hc with rfl | hc'
      · exact bfs_comp_fresh pairs fuel [k] visited x hx
      · intro hv
        exact ih _ c hc' x hx
          ((bfs_mem_visited pairs fuel [k] visited x).mpr (Or.inr hv))

theorem discoverAux_disjoint (pairs : List (String × String)) (fuel : Nat) :
    ∀ (ks visited : List String),
      List.Pairwise (fun c d => ∀ x, x ∈ c → x ∉ d)
        (discoverAux pairs fuel ks visited) := by
  intro ks
  induction ks with
  | nil => intro visited; simp [discoverAux]
  | cons k ks ih =>
    intro visited
    by_cases h : k ∈ visited
    · rw [show discoverAux pairs fuel (k :: ks) visited =
          discoverAux pairs fuel ks visited from by simp [discoverAux, if_pos h]]
      exact ih visited
    · simp only [discoverAux, if_neg h]
      refine List.Pairwise.cons ?_ (ih _)
      intro d hd x hxc
      intro hxd
      exact discoverAux_fresh pairs fuel ks _ d hd x hxd
        ((bfs_mem_visited pairs fuel [k] visited x).mpr (Or.inl hxc))

theorem discoverAux_covers (pairs : List (String × String)) (fuel : Nat)
    (hf : fuel ≠ 0) :
    ∀ (ks visited : List String) (k : String), k ∈ ks →
      k ∈ visited ∨ ∃ c ∈ discoverAux pairs fuel ks visited, k ∈ c := by
  intro ks
  induction ks with
  | nil => intro visited k hk; simp at hk
  | cons k0 ks ih =>
    intro visited k hk
    by_cases h : k0 ∈ visited
    · rw [show discoverAux pairs fuel (k0 :: ks) visited =
          discoverAux pairs fuel ks visited from by simp [discoverAux, if_pos h]]
      rcases List.mem_cons.mp hk with rfl | hk'
      · exact Or.inl h
      · exact ih visited k hk'
    · simp only [discoverAux, if_neg h]
      rcases List.mem_cons.mp hk with rfl | hk'
      · exact Or.inr ⟨(bfs pairs fuel [k] visited).1,
          List.mem_cons_self _ _, bfs_start_mem pairs fuel hf k visited h⟩
      · rcases ih (bfs pairs fuel [k0] visited).2 k hk' with hv | ⟨c, hc, hkc⟩
        · rcases (bfs_mem_visited pairs fuel [k0] visited k).mp hv with h1 | h2
          · exact Or.inr ⟨(bfs pairs fuel [k0] visited).1, List.mem_cons_self _ _, h1⟩
          · exact Or.inl h2
        · exact Or.inr ⟨c, List.mem_cons_of_mem _ hc, hkc⟩

/-- Claim C1, counterexample: the claim places 0.3 in the medium bucket
([0.3, 0.6) -> medium), but pd.cut with right-closed bins labels a fraud
probability of exactly 0.3 as low; moreover probability exactly 0 falls
outside every bin and gets no category instead of low. -/
theorem risk_category_boundary_counterexample :
    risk_category (3/10) = some "low" ∧ risk_category (3/10) ≠ some "medium" ∧
    risk_category 0 = none ∧ risk_category 0 ≠ some "low" := by decide

/-- Claim C1, amended: risk category is a pure function of fraud
probability with left-open right-closed bins: low on (0, 0.3], medium on
(0.3, 0.6], high on (0.6, 0.75], critical on (0.75, 1], and no category
for probability 0 (or any value outside (0, 1]). -/
theorem risk_category_right_closed (p : ℚ) :
    risk_category p = riskCategoryIntervals p := by
  simp only [risk_category, riskCategoryIntervals, cutIdx, Option.map_none',
    Option.map_some', Option.some_bind, Option.none_bind, List.get?]
  split_ifs <;> simp_all <;> linarith

/-- Claim C4: the computed fraud probability is exactly the clip to
[0, 1] of the weighted signal combination plus the random term u drawn
from [0, 0.08), and it lies in [0, 1] for arbitrary signal values,
including values outside [0, 1] and negative values. -/
theorem fraud_probability_in_unit_interval (v g s t u : ℚ)
    (h0 : 0 ≤ u) (h1 : u < 2/25) :
    fraud_probability_score v g s t u =
      clip01 (v * (34/100) + g * (28/100) + s * (19/100) +
        (if t < 60 then (11/100 : ℚ) else 0) + u) ∧
    0 ≤ fraud_probability_score v g s t u ∧
    fraud_probability_score v g s t u ≤ 1 := by
  refine ⟨rfl, ?_, ?_⟩
  · unfold fraud_probability_score clip01
    exact le_min zero_le_one (le_max_left 0 _)
  · unfold fraud_probability_score clip01
    exact min_le_left 1 _

theorem fraud_probability_in_unit_interval_witness :
    fraud_probability_score 5 (-3) 2 10 0 =
      clip01 ((5 : ℚ) * (34/100) + (-3) * (28/100) + 2 * (19/100) +
        (if (10 : ℚ) < 60 then (11/100 : ℚ) else 0) + 0) ∧
    0 ≤ fraud_probability_score 5 (-3) 2 10 0 ∧
    fraud_probability_score 5 (-3) 2 10 0 ≤ 1 :=
  fraud_probability_in_unit_interval 5 (-3) 2 10 0 (by norm_num) (by norm_num)

/-- Claim C5, counterexample: _preprocess_data applies no fill policy to
the behavioral signal columns, so a record whose velocity score is NaN
(with all other signals present) gets a NaN fraud probability, refuting
the claim that the probability is never NaN. -/
theorem nan_signal_counterexample :
    fraud_probability_float FV.nan (FV.fin 0) (FV.fin 0) (FV.fin 100) 0 =
      FV.nan ∧ ∀ q : ℚ,
      fraud_probability_float FV.nan (FV.fin 0) (FV.fin 0) (FV.fin 100) 0 ≠
        FV.fin q := by
  exact ⟨rfl, fun q h => FV.noConfusion h⟩

/-- Claim C5, amended: no fill policy is applied before scoring. A NaN in
any of the three weighted signals (velocity, geo-anomaly,
spending-deviation) propagates to a NaN fraud probability; a NaN
time-since-last-transaction alone does not (the < 60 comparison is False
on NaN, so the indicator term is 0); with all signals present the float
computation agrees with the exact rational score. -/
theorem nan_propagation (v g s t u : ℚ) :
    fraud_probability_float FV.nan (FV.fin g) (FV.fin s) (FV.fin t) u = FV.nan ∧
    fraud_probability_float (FV.fin v) FV.nan (FV.fin s) (FV.fin t) u = FV.nan ∧
    fraud_probability_float (FV.fin v) (FV.fin g) FV.nan (FV.fin t) u = FV.nan ∧
    fraud_probability_float (FV.fin v) (FV.fin g) (FV.fin s) FV.nan u =
      FV.fin (clip01 (v * (34/100) + g * (28/100) + s * (19/100) + 0 + u)) ∧
    fraud_probability_float (FV.fin v) (FV.fin g) (FV.fin s) (FV.fin t) u =
      FV.fin (fraud_probability_score v g s t u) := by
  refine ⟨rfl, rfl, rfl, rfl, ?_⟩
  by_cases ht : t < 60 <;>
    simp [fraud_probability_float, fmulc, fadd, fltb, fclip01,
      fraud_probability_score, ht]

/-- Claim C7, counterexample: for an account that received a total of 0
but sent 100, pandas float division gives +inf and fillna(0) does not
replace it, so the redistribution ratio is +inf, not 0 as claimed. -/
theorem ratio_inf_counterexample :
    redistribution_ratio 100 0 = FV.inf ∧ FV.inf ≠ FV.fin 0 := by decide

/-- Claim C7, amended: with zero amount received, the redistribution
ratio is 0 only when the amount sent is also 0 (the NaN of 0/0 is filled
with 0); when the amount sent is positive the ratio is +inf. In neither
case is a division error raised (the computation is total). -/
theorem ratio_zero_received (sent : ℚ) (h : 0 ≤ sent) :
    redistribution_ratio sent 0 =
      (if sent = 0 then FV.fin 0 else FV.inf) := by
  by_cases hs : sent = 0
  · simp [redistribution_ratio, divF, fillna0, hs]
  · have hpos : 0 < sent := lt_of_le_of_ne h (Ne.symm hs)
    simp [redistribution_ratio, divF, fillna0, hs, hpos, not_lt_of_lt hpos]

theorem ratio_zero_received_witness :
    redistribution_ratio 100 0 = (if (100 : ℚ) = 0 then FV.fin 0 else FV.inf) :=
  ratio_zero_received 100 (by norm_num)

/-- Claim C9: building the relationship graph twice with the same
min_transactions and min_fraud_prob over the same snapshot (same record
list with fixed per-record scores) yields identical node and edge sets;
the build reads the snapshot without mutating it and uses no randomness. -/
theorem graph_build_deterministic (d1 d2 : List Txn) (min_transactions : Nat)
    (min_fraud_prob : ℚ) (h : d1 = d2) :
    (get_fraud_network_graph d1 min_transactions min_fraud_prob).nodes =
      (get_fraud_network_graph d2 min_transactions min_fraud_prob).nodes ∧
    (get_fraud_network_graph d1 min_transactions min_fraud_prob).edges =
      (get_fraud_network_graph d2 min_transactions min_fraud_prob).edges := by
  subst h
  exact ⟨rfl, rfl⟩

theorem graph_build_deterministic_witness :
    (get_fraud_network_graph cycleTxns 1 (6/10)).nodes =
      (get_fraud_network_graph cycleTxns 1 (6/10)).nodes ∧
    (get_fraud_network_graph cycleTxns 1 (6/10)).edges =
      (get_fraud_network_graph cycleTxns 1 (6/10)).edges :=
  graph_build_deterministic cycleTxns cycleTxns 1 (6/10) rfl

/-- Claim C2, counterexample: the purely linear chain A to B to C (no
back-edge) IS returned by ring detection as a ring over {A, B, C}: the
directed BFS reaches all three nodes from A and the permissive cyclicity
heuristic accepts any directed edge between distinct members, so the
claim that a chain is not returned as a ring is false. -/
theorem chain_returned_as_ring_counterexample :
    (get_fraud_network_graph chainTxns 1 (6/10)).fraud_rings.map
      FraudRing.accounts = [["A", "B", "C"]] ∧
    (get_fraud_network_graph chainTxns 1 (6/10)).rings_detected ≠ 0 := by decide

/-- Claim C2, amended: a 3-node component with directed edges A to B,
B to C, C to A is returned as exactly one ring containing {A, B, C}; but
the 3-node purely linear chain A to B, B to C is ALSO returned as exactly
one ring over {A, B, C}, because the cyclicity check accepts any directed
edge between two distinct members of the component. -/
theorem ring_detection_cycle_and_chain :
    (get_fraud_network_graph cycleTxns 1 (6/10)).fraud_rings.map
      FraudRing.accounts = [["A", "B", "C"]] ∧
    (get_fraud_network_graph cycleTxns 1 (6/10)).rings_detected = 1 ∧
    (get_fraud_network_graph chainTxns 1 (6/10)).fraud_rings.map
      FraudRing.accounts = [["A", "B", "C"]] ∧
    (get_fraud_network_graph chainTxns 1 (6/10)).rings_detected = 1 := by decide

/-- Claim C3, counterexample: for the graph with edges A to B and C to B,
the loop of _detect_fraud_rings discovers the components {A, B} and {C}
(BFS follows outgoing edges only and starts from sender keys), while the
weakly-connected components of the same graph are the single component
{A, B, C}; the two families differ, refuting the claim that the
candidate components are exactly the weakly-connected components. -/
theorem components_not_weak_counterexample :
    discover_components vPairs = [["A", "B"], ["C"]] ∧
    weakComponentsSpec vPairs = [["A", "B", "C"]] ∧
    familyEqB (discover_components vPairs) (weakComponentsSpec vPairs) =
      false := by decide

/-- Claim C3, amended: component discovery traverses the DIRECTED
adjacency only (outgoing edges, starting from sender keys), not the
undirected one; the discovered candidate components are pairwise
disjoint and every sender account lies in exactly one of them, but they
can be strictly finer than the weakly-connected components. -/
theorem discover_components_directed (pairs : List (String × String)) :
    List.Pairwise (fun c d => ∀ x, x ∈ c → x ∉ d)
      (discover_components pairs) ∧
    ∀ s, s ∈ pairs.map Prod.fst → ∃ c ∈ discover_components pairs, s ∈ c := by
  constructor
  · exact discoverAux_disjoint pairs (pairs.length + 1) _ []
  · intro s hs
    have hs' : s ∈ firstDedup (pairs.map Prod.fst) :=
      (mem_firstDedup _ s).mpr hs
    rcases discoverAux_covers pairs (pairs.length + 1) (Nat.succ_ne_zero _)
        (firstDedup (pairs.map Prod.fst)) [] s hs' with hv | h
    · simp at hv
    · exact h

theorem discover_components_directed_witness :
    ∃ c ∈ discover_components vPairs, "A" ∈ c :=
  (discover_components_directed vPairs).2 "A" (by decide)

theorem mem_edgesOf_split (txns : List Txn) (mp : ℚ) (mt : Nat)
    (e : NetworkEdge) (he : e ∈ edgesOf txns mp mt) :
    ∃ k : String × String,
      e = toEdge (mkPairRow (suspicious txns mp) k) ∧
      mt ≤ (groupOf (suspicious txns mp) k.1 k.2).length := by
  unfold edgesOf pairsOf at he
  rcases List.mem_map.mp he with ⟨row, hrow, rfl⟩
  rcases List.mem_filter.mp hrow with ⟨hmem, hcnt⟩
  rcases List.mem_map.mp hmem with ⟨k, hk, rfl⟩
  refine ⟨k, rfl, ?_⟩
  simpa [mkPairRow] using hcnt

/-- Claim C6: every edge of the relationship graph has
transaction_count >= min_transactions, and its count, total amount and
mean fraud probability aggregate exactly the transactions of its
(sender, receiver) pair within the suspicion-filtered set (so only
transactions with fraud_probability >= min_fraud_prob contribute); a
pair whose filtered transaction count is below min_transactions never
appears as an edge. -/
theorem edges_respect_thresholds (txns : List Txn) (mp : ℚ) (mt : Nat) :
    (∀ e ∈ edgesOf txns mp mt,
        mt ≤ e.transaction_count ∧
        e.transaction_count =
          (groupOf (suspicious txns mp) e.source e.target).length ∧
        e.total_amount =
          ((groupOf (suspicious txns mp) e.source e.target).map
            Txn.amount).sum ∧
        e.avg_fraud_probability =
          ((groupOf (suspicious txns mp) e.source e.target).map
            Txn.fraud_probability).sum /
          ((groupOf (suspicious txns mp) e.source e.target).length : ℚ)) ∧
    (∀ s r, (groupOf (suspicious txns mp) s r).length < mt →
        ∀ e ∈ edgesOf txns mp mt, ¬(e.source = s ∧ e.target = r)) := by
  constructor
  · intro e he
    rcases mem_edgesOf_split txns mp mt e he with ⟨k, rfl, hcnt⟩
    exact ⟨hcnt, rfl, rfl, rfl⟩
  · rintro s r hlt e he ⟨hs, hr⟩
    rcases mem_edgesOf_split txns mp mt e he with ⟨k, rfl, hcnt⟩
    simp only [toEdge, mkPairRow] at hs hr
    subst hs
    subst hr
    exact absurd hcnt (not_le.mpr hlt)

theorem edges_respect_thresholds_witness :
    1 ≤ (toEdge (mkPairRow (suspicious cycleTxns (6/10))
        ("A", "B"))).transaction_count ∧
    (toEdge (mkPairRow (suspicious cycleTxns (6/10))
        ("A", "B"))).transaction_count =
      (groupOf (suspicious cycleTxns (6/10))
        (toEdge (mkPairRow (suspicious cycleTxns (6/10)) ("A", "B"))).source
        (toEdge (mkPairRow (suspicious cycleTxns (6/10))
          ("A", "B"))).target).length ∧
    (toEdge (mkPairRow (suspicious cycleTxns (6/10)) ("A", "B"))).total_amount =
      ((groupOf (suspicious cycleTxns (6/10))
        (toEdge (mkPairRow (suspicious cycleTxns (6/10)) ("A", "B"))).source
        (toEdge (mkPairRow (suspicious cycleTxns (6/10))
          ("A", "B"))).target).map Txn.amount).sum ∧
    (toEdge (mkPairRow (suspicious cycleTxns (6/10))
        ("A", "B"))).avg_fraud_probability =
      ((groupOf (suspicious cycleTxns (6/10))
        (toEdge (mkPairRow (suspicious cycleTxns (6/10)) ("A", "B"))).source
        (toEdge (mkPairRow (suspicious cycleTxns (6/10))
          ("A", "B"))).target).map Txn.fraud_probability).sum /
      ((groupOf (suspicious cycleTxns (6/10))
        (toEdge (mkPairRow (suspicious cycleTxns (6/10)) ("A", "B"))).source
        (toEdge (mkPairRow (suspicious cycleTxns (6/10))
          ("A", "B"))).target).length : ℚ) :=
  (edges_respect_thresholds cycleTxns (6/10) 1).1
    (toEdge (mkPairRow (suspicious cycleTxns (6/10)) ("A", "B"))) (by decide)

/-- Claim C8: detect_mule_accounts runs over the full unfiltered dataset
and flags exactly the merged candidate accounts (accounts appearing both
as receiver and as sender) whose unique-sender count is at least
min_senders and whose redistribution ratio passes the threshold,
returning at most 20 of them; a 6-sender account redistributing 90% of
the received amount is flagged at min_senders = 5 and threshold = 0.8;
an account with fewer than min_senders distinct senders is never in the
returned list. -/
theorem detect_mule_spec (txns : List Txn) (min_senders : Nat)
    (redistribution_threshold : ℚ) (a : String) :
    (detect_mule_accounts txns min_senders redistribution_threshold).length
      ≤ 20 ∧
    (∀ m ∈ detect_mule_accounts txns min_senders redistribution_threshold,
        min_senders ≤ m.unique_senders ∧
        fgeb m.redistribution_ratio redistribution_threshold = true) ∧
    (a ∈ muleCandidateAccounts txns →
        min_senders ≤ uniqueSendersOf txns a →
        fgeb (redistribution_ratio (amountSentOf txns a)
            (amountReceivedOf txns a)) redistribution_threshold = true →
        mkMuleRow txns a ∈
          muleFlagged txns min_senders redistribution_threshold) ∧
    (uniqueSendersOf txns a < min_senders →
        a ∉ (detect_mule_accounts txns min_senders
          redistribution_threshold).map MuleRow.account) ∧
    "M" ∈ (detect_mule_accounts muleTxns 5 (4/5)).map MuleRow.account := by
  refine ⟨?_, ?_, ?_, ?_, by decide⟩
  · unfold detect_mule_accounts
    rw [List.length_take]
    exact min_le_left _ _
  · intro m hm
    have hm' : m ∈ muleFlagged txns min_senders redistribution_threshold :=
      List.take_subset _ _ hm
    rcases List.mem_filter.mp hm' with ⟨_, hp⟩
    rw [Bool.and_eq_true] at hp
    exact ⟨of_decide_eq_true hp.1, hp.2⟩
  · intro ha hsend hratio
    refine List.mem_filter.mpr ⟨List.mem_map.mpr ⟨a, ha, rfl⟩, ?_⟩
    rw [Bool.and_eq_true]
    exact ⟨decide_eq_true hsend, hratio⟩
  · intro hlt hmem
    rcases List.mem_map.mp hmem with ⟨m, hm, hacc⟩
    have hm' : m ∈ muleFlagged txns min_senders redistribution_threshold :=
      List.take_subset _ _ hm
    rcases List.mem_filter.mp hm' with ⟨hcand, hp⟩
    rcases List.mem_map.mp hcand with ⟨a1, ha1, rfl⟩
    have haa : a1 = a := hacc
    subst haa
    rw [Bool.and_eq_true] at hp
    exact absurd (of_decide_eq_true hp.1) (not_le.mpr hlt)

theorem detect_mule_spec_witness :
    "X" ∉ (detect_mule_accounts muleTxns 5 (4/5)).map MuleRow.account :=
  (detect_mule_spec muleTxns 5 (4/5) "X").2.2.2.1 (by decide)

/-- Claim C10: the returned edge list is the full surviving pair list
truncated to the first 200 entries (so it never exceeds 200 edges),
while the nodes, total_accounts, total_volume and fraud-ring detection
are all computed over the complete untruncated set of surviving pairs. -/
theorem graph_edges_truncated (txns : List Txn) (min_transactions : Nat)
    (min_fraud_prob : ℚ) :
    (get_fraud_network_graph txns min_transactions min_fraud_prob).edges =
      (edgesOf txns min_fraud_prob min_transactions).take 200 ∧
    (get_fraud_network_graph txns min_transactions min_fraud_prob).edges.length =
      min 200 (pairsOf txns min_fraud_prob min_transactions).length ∧
    (get_fraud_network_graph txns min_transactions min_fraud_prob).edges.length
      ≤ 200 ∧
    (get_fraud_network_graph txns min_transactions min_fraud_prob).nodes =
      buildNodes (suspicious txns min_fraud_prob)
        (pairsOf txns min_fraud_prob min_transactions) ∧
    (get_fraud_network_graph txns min_transactions min_fraud_prob).total_accounts =
      (accountsOf (pairsOf txns min_fraud_prob min_transactions)).length ∧
    (get_fraud_network_graph txns min_transactions min_fraud_prob).total_volume =
      roundTo 2 (((pairsOf txns min_fraud_prob min_transactions).map
        PairRow.total_amount).sum) ∧
    (get_fraud_network_graph txns min_transactions min_fraud_prob).fraud_rings =
      detect_fraud_rings (pairsOf txns min_fraud_prob min_transactions)
        (suspicious txns min_fraud_prob) := by
  refine ⟨rfl, ?_, ?_, rfl, rfl, rfl, rfl⟩
  · show ((edgesOf txns min_fraud_prob min_transactions).take 200).length = _
    rw [List.length_take]
    unfold edgesOf
    rw [List.length_map]
  · show ((edgesOf txns min_fraud_prob min_transactions).take 200).length ≤ 200
    rw [List.length_take]
    exact min_le_left _ _
